import Mathlib

/-!
Verification of the maillots photo-studio front-end.

The repository is a browser front-end that assembles a natural-language
directive and a multimodal part list from user inputs, sends them to a
remote image-generation API, and interprets the response as either a
data-URI artifact or a typed failure.  This file gives a shallow embedding
of the relevant pure logic:

* `processApiResponse` — the response interpreter from
  `src/types.ts` (geminiService, lines 327-355): safety-block branch,
  first-inline-image branch, and the no-image text-reason branch.
* `buildPrompt` and its clause helpers — the directive builder from
  `src/types.ts` (primary geminiService revision, lines 60-114).
* `generationParts` / `refinementParts` — part-list assembly from
  `generateArtisticPhoto` / `refineArtisticPhoto` (lines 185-231).
* `applyOp` — the session-state transitions of `src/App.tsx` that touch
  the generated-image history and related UI state.
* `regexMatchColonSemi` / `splitCommaAux` — the data-URI decoding done by
  `handleRefine` in `src/App.tsx` (split on comma, match on colon-semicolon).
* `colorPalettes` — the palette table of `src/data/palettes.ts`.

Strings are embedded as Lean `String`; JavaScript array `join`, `split`,
truthiness tests and optional chaining are modelled explicitly.
-/

set_option maxRecDepth 200000

namespace Maillots

/-- JavaScript `Array.prototype.join(sep)`. -/
def jsJoin (sep : String) : List String → String
  | [] => ""
  | [s] => s
  | s :: rest => s ++ sep ++ jsJoin sep rest

/-- The whitespace characters JavaScript `trim` removes (the ASCII ones;
the artifact strings here never carry the exotic Unicode spaces). -/
def jsWhitespace (c : Char) : Bool :=
  c = Char.ofNat 32 || c = Char.ofNat 9 || c = Char.ofNat 10 ||
    c = Char.ofNat 13 || c = Char.ofNat 11 || c = Char.ofNat 12

/-- JavaScript `String.prototype.trim()`: drop whitespace from both
ends. -/
def jsTrim (s : String) : String :=
  ⟨(((s.data.dropWhile jsWhitespace).reverse).dropWhile jsWhitespace).reverse⟩

/-- `ImageData` from `src/types.ts`: a base64 payload and its MIME type. -/
structure ImageData where
  base64 : String
  mimeType : String
deriving DecidableEq, Repr

/-- Inline binary data of a response part (`part.inlineData`). -/
structure InlineData where
  data : String
  mimeType : String
deriving DecidableEq, Repr

/-- One per-category safety rating of the remote response. -/
structure SafetyRating where
  category : String
  blocked : Bool
deriving DecidableEq, Repr

/-- One content part of the remote response: it may carry inline image
data, text, both, or neither (absent fields are `none`). -/
structure ResponsePart where
  inlineData : Option InlineData := none
  text : Option String := none
deriving DecidableEq, Repr

/-- `candidate.content`: its `parts` array may itself be absent. -/
structure Content where
  parts : Option (List ResponsePart) := none
deriving DecidableEq, Repr

/-- One response candidate: completion reason, optional per-category safety
ratings, optional content. -/
structure Candidate where
  finishReason : Option String := none
  safetyRatings : Option (List SafetyRating) := none
  content : Option Content := none
deriving DecidableEq, Repr

/-- The remote response: `candidates` may be absent. -/
structure ApiResponse where
  candidates : Option (List Candidate) := none
deriving DecidableEq, Repr

/-- `response.candidates?.[0]` — optional chaining composed with JS
indexing, which yields `undefined` past the end. -/
def firstCandidate (r : ApiResponse) : Option Candidate :=
  r.candidates.bind List.head?

/-- `response.candidates?.[0]?.content?.parts || []`. -/
def partsOf (r : ApiResponse) : List ResponsePart :=
  match firstCandidate r with
  | some c =>
    match c.content with
    | some ct => ct.parts.getD []
    | none => []
  | none => []

/-- The `for … of parts` loop body of `processApiResponse`: the first part
whose `inlineData` field is set. -/
def findInlineImage : List ResponsePart → Option InlineData
  | [] => none
  | p :: rest =>
    match p.inlineData with
    | some d => some d
    | none => findInlineImage rest

/-- JS truthiness of `part.text`: defined and non-empty. -/
def textTruthy : Option String → Bool
  | some s => !s.isEmpty
  | none => false

/-- `parts?.filter(part => part.text).map(part => part.text) || []` from the
no-image branch of `processApiResponse`. -/
def textPartsOf (r : ApiResponse) : List String :=
  ((partsOf r).filter (fun p => textTruthy p.text)).map (fun p => p.text.getD "")

/-- `safetyRatings.filter(r => r.blocked).map(r => r.category).join(', ')`. -/
def blockedCategoriesString (ratings : List SafetyRating) : String :=
  jsJoin ", " ((ratings.filter (fun rt => rt.blocked)).map (fun rt => rt.category))

/-- The safety-block error message, with its `|| 'unspecified category'`
fallback on the empty joined string. -/
def safetyMessage (ratings : List SafetyRating) : String :=
  let blockedCategories := blockedCategoriesString ratings
  "The request was blocked due to safety policies regarding: " ++
    (if blockedCategories = "" then "unspecified category" else blockedCategories) ++
    ". Please adjust your images or prompts."

/-- The no-image error message, with its `|| "No specific reason provided."`
fallback on the empty trimmed reason. -/
def noImageMessage (reason : String) : String :=
  "The AI did not return an image. Reason: " ++
    (if reason = "" then "No specific reason provided." else reason)

/-- The three failure outcomes of the response interpreter.  `jsTypeError`
models the JavaScript `TypeError` thrown when the safety branch reads
`.filter` off an absent `safetyRatings` array. -/
inductive ApiError where
  | safetyBlocked (message : String)
  | noImageProduced (message : String)
  | jsTypeError
deriving DecidableEq, Repr

/-- `processApiResponse` from `src/types.ts`: safety check first, then the
scan for the first inline-image part, then the text-reason fallback. -/
def processApiResponse (r : ApiResponse) : Except ApiError String :=
  if (firstCandidate r).bind Candidate.finishReason = some "SAFETY" then
    match (firstCandidate r).bind Candidate.safetyRatings with
    | none => Except.error ApiError.jsTypeError
    | some ratings => Except.error (ApiError.safetyBlocked (safetyMessage ratings))
  else
    match findInlineImage (partsOf r) with
    | some d => Except.ok ("data:" ++ d.mimeType ++ ";base64," ++ d.data)
    | none =>
      Except.error (ApiError.noImageProduced
        (noImageMessage (jsTrim (jsJoin " " (textPartsOf r)))))

/-- Whether an interpreter outcome is the safety-block failure. -/
def isSafetyBlocked : Except ApiError String → Bool
  | Except.error (ApiError.safetyBlocked _) => true
  | _ => false

/-- The data-URI construction of the image branch of `processApiResponse`. -/
def encodeDataUri (mimeType payload : String) : String :=
  "data:" ++ mimeType ++ ";base64," ++ payload

/-! ### The directive builder (`buildPrompt`, `src/types.ts` lines 60-114) -/

/-- The `ageInstructionMap` lookup of `getAgeInstruction`: a JavaScript
object lookup that yields `undefined` on any other key. -/
def ageInstructionMap (modelAge : String) : Option String :=
  if modelAge = "child" then some "a child, approximately 6-9 years old"
  else if modelAge = "pre-teen" then some "a pre-teen, approximately 10-12 years old"
  else if modelAge = "teenager" then some "a teenager, approximately 13-16 years old"
  else if modelAge = "young-adult" then some "a young adult, approximately 18-25 years old"
  else none

/-- The age-adjustment clause wrapped around a mapped age-range phrase. -/
def ageClause (ageText : String) : String :=
  "- **Age Adjustment:** Crucially, interpret the model with the appearance of " ++
    ageText ++ "."

/-- `getAgeInstruction` from `src/types.ts`: the mapped clause, or the empty
string when the age option is not in the map. -/
def getAgeInstruction (modelAge : String) : String :=
  match ageInstructionMap modelAge with
  | some ageText => ageClause ageText
  | none => ""

/-- The fixed introduction of the garment-application clause. -/
def garmentIntro : String :=
  "Meticulously replicate the garment's design from Image 1: its cut, shape, patterns, and any embellishments like sequins."

/-- The fixed fit sentence of the garment-application clause. -/
def garmentFit : String :=
  "The garment must fit the model's body naturally and realistically."

/-- The color-preservation sentence emitted when no palette is given. -/
def colorPreservationClause : String :=
  "Crucially, the garment's original colors from Image 1 MUST be preserved accurately."

/-- The palette-constraint sentence emitted for a non-empty palette, with
the colors joined by `', '`. -/
def paletteClause (paletteColors : List String) : String :=
  "Crucially, the garment's colors MUST be changed to use only this palette: " ++
    jsJoin ", " paletteColors ++ "."

/-- `getGarmentApplicationInstruction` from `src/types.ts`: the palette
sentence replaces the color-preservation sentence exactly when a palette is
present and non-empty. -/
def getGarmentApplicationInstruction (paletteColors : Option (List String)) : String :=
  let colorInstruction :=
    match paletteColors with
    | some l => if 0 < l.length then paletteClause l else colorPreservationClause
    | none => colorPreservationClause
  "- **Garment Application:** " ++ garmentIntro ++ " " ++ colorInstruction ++ " " ++ garmentFit

/-- `getBackgroundInstruction` from `src/types.ts`. -/
def getBackgroundInstruction (background : String) (hasBackgroundImage : Bool) : String :=
  if hasBackgroundImage then
    "Use the background from Image 3. Integrate the model naturally."
  else
    "The background must be strictly: '" ++ background ++ "'."

/-- The aspect-ratio clause of `buildPrompt`. -/
def aspectRatioSection (aspectRatio : String) : String :=
  "- **Aspect Ratio:** The final image MUST be generated in a " ++ aspectRatio ++ " aspect ratio."

/-- The additional-instructions clause of `buildPrompt`. -/
def additionalInstructionsSection (instructions : String) : String :=
  "- **Additional Instructions:** " ++ instructions

/-- The fixed role-framing section of `buildPrompt`. -/
def roleSection : String :=
  "You are a professional AI photography director. Your task is to generate a photorealistic image based on several input images and instructions. The final image must be of professional quality, suitable for a design portfolio."

/-- The legend of Image 1 (the garment design). -/
def image1Legend : String :=
  "- Image 1: A 'garment design' to be applied to the model."

/-- The legend of Image 2 (the model reference). -/
def image2Legend : String :=
  "- Image 2: A 'model reference' of the person to be featured."

/-- The legend of Image 3 (the optional background reference). -/
def image3Legend : String :=
  "- Image 3: A 'background reference' to be used as the scene."

/-- The fixed core-task statement of `buildPrompt`. -/
def coreTaskSection : String :=
  "Create a single, photorealistic image of the person from Image 2, making them wear the garment design from Image 1, and placing them in the specified background."

/-- The fixed model-fidelity clause of `buildPrompt`. -/
def modelFidelitySection : String :=
  "- **Model Fidelity:** The person in the final image MUST be based on Image 2. If Image 2 is a photo, replicate the person accurately. If Image 2 is a drawing or sketch, transform it into a photorealistic person, but faithfully keeping the facial features, body type, and hair from the drawing."

/-- The fixed pose clause of `buildPrompt`. -/
def poseSection : String :=
  "- **Pose:** The model's pose must be calm and relaxed, with arms down, looking confidently at the camera with a gentle smile."

/-- `Omit<GenerationParams, 'garmentImage' | 'modelImage'>`: the text and
enum inputs of the directive builder. -/
structure PromptParams where
  instructions : String
  background : String
  aspectRatio : String
  paletteColors : Option (List String) := none
  backgroundImage : Option ImageData := none
  modelAge : String
deriving DecidableEq, Repr

/-- The `promptSections` array of `buildPrompt`: `none` models the
JavaScript `null` entries of the conditional clauses. -/
def promptSections (p : PromptParams) : List (Option String) :=
  [some roleSection,
   some "",
   some "**Input Assets:**",
   some image1Legend,
   some image2Legend,
   if p.backgroundImage.isSome then some image3Legend else none,
   some "",
   some "**Core Task:**",
   some coreTaskSection,
   some "",
   some "**Key Directives:**",
   some modelFidelitySection,
   some (getAgeInstruction p.modelAge),
   some (getGarmentApplicationInstruction p.paletteColors),
   some poseSection,
   some (getBackgroundInstruction p.background p.backgroundImage.isSome),
   some (aspectRatioSection p.aspectRatio),
   if p.instructions = "" then none else some (additionalInstructionsSection p.instructions)]

/-- The `null`-filtered section list actually joined by `buildPrompt`. -/
def sectionsOf (p : PromptParams) : List String :=
  (promptSections p).filterMap id

/-- `buildPrompt` from `src/types.ts`:
`promptSections.filter(line => line !== null).join('\n')`. -/
def buildPrompt (p : PromptParams) : String :=
  jsJoin "\n" (sectionsOf p)

/-! ### Substring infrastructure -/

/-- Boolean prefix test on character lists. -/
def isPrefixOfB : List Char → List Char → Bool
  | [], _ => true
  | _ :: _, [] => false
  | a :: as, b :: bs => a = b && isPrefixOfB as bs

/-- Boolean infix (substring) test on character lists. -/
def infixOfB (p : List Char) : List Char → Bool
  | [] => p.isEmpty
  | l@(_ :: rest) => isPrefixOfB p l || infixOfB p rest

/-- `pat` occurs as a contiguous substring of `s`. -/
def containsStr (s pat : String) : Prop :=
  pat.data <:+: s.data

theorem isPrefixOfB_iff (p : List Char) : ∀ l : List Char, isPrefixOfB p l = true ↔ p <+: l := by
  induction p with
  | nil => intro l; simp [isPrefixOfB]
  | cons a as ih =>
    intro l
    cases l with
    | nil => simp [isPrefixOfB]
    | cons b bs =>
      simp [isPrefixOfB, List.cons_prefix_cons, ih bs, and_comm]

theorem infixOfB_iff (p : List Char) : ∀ l : List Char, infixOfB p l = true ↔ p <:+: l := by
  intro l
  induction l with
  | nil => cases p <;> simp [infixOfB, List.isEmpty]
  | cons b bs ih =>
    simp [infixOfB, List.infix_cons_iff, isPrefixOfB_iff, ih, or_comm]

instance (s pat : String) : Decidable (containsStr s pat) :=
  decidable_of_iff (infixOfB pat.data s.data = true) (by rw [infixOfB_iff]; rfl)

theorem notMem_of_prefix_append_cons {p a b : List Char} {c : Char}
    (h : p <+: a ++ c :: b) (hc : c ∉ p) : p <+: a := by
  induction a generalizing p with
  | nil =>
    cases p with
    | nil => exact List.nil_prefix
    | cons x xs =>
      rcases List.cons_prefix_cons.mp h with ⟨hx, -⟩
      exact absurd (hx ▸ List.mem_cons_self x xs) hc
  | cons y ys ih =>
    cases p with
    | nil => exact List.nil_prefix
    | cons x xs =>
      rcases List.cons_prefix_cons.mp h with ⟨hx, hxs⟩
      have hxc : c ∉ xs := fun hm => hc (List.mem_cons_of_mem x hm)
      exact List.cons_prefix_cons.mpr ⟨hx, ih hxs hxc⟩

theorem infix_split_at_cons {p a b : List Char} {c : Char}
    (h : p <:+: a ++ c :: b) (hc : c ∉ p) : p <:+: a ∨ p <:+: b := by
  induction a generalizing p with
  | nil =>
    rcases List.infix_cons_iff.mp h with hpre | hin
    · cases p with
      | nil => exact Or.inl List.nil_infix
      | cons x xs =>
        rcases List.cons_prefix_cons.mp hpre with ⟨hx, -⟩
        exact absurd (hx ▸ List.mem_cons_self x xs) hc
    · exact Or.inr hin
  | cons y ys ih =>
    rcases List.infix_cons_iff.mp h with hpre | hin
    · left
      exact (notMem_of_prefix_append_cons (a := y :: ys) hpre hc).isInfix
    · rcases ih hin hc with h1 | h2
      · exact Or.inl (List.infix_cons h1)
      · exact Or.inr h2

theorem jsJoin_infix_of_mem {sep s : String} : ∀ {l : List String}, s ∈ l →
    s.data <:+: (jsJoin sep l).data := by
  intro l
  induction l with
  | nil => intro h; cases h
  | cons a rest ih =>
    intro hmem
    cases rest with
    | nil =>
      rcases List.mem_singleton.mp hmem with rfl
      exact List.infix_refl _
    | cons b bs =>
      rcases List.mem_cons.mp hmem with rfl | htail
      · have : s.data <+: (jsJoin sep (s :: b :: bs)).data := by
          show s.data <+: (s ++ sep ++ jsJoin sep (b :: bs)).data
          simp only [String.data_append, List.append_assoc]
          exact List.prefix_append _ _
        exact this.isInfix
      · have htl : s.data <:+: (jsJoin sep (b :: bs)).data := ih htail
        have : (jsJoin sep (b :: bs)).data <:+ (jsJoin sep (a :: b :: bs)).data := by
          show (jsJoin sep (b :: bs)).data <:+ (a ++ sep ++ jsJoin sep (b :: bs)).data
          simp only [String.data_append]
          exact List.suffix_append _ _
        exact htl.trans this.isInfix

theorem jsJoin_nl_not_contains {p : List Char} (hne : p ≠ []) (hnl : Char.ofNat 10 ∉ p) :
    ∀ {l : List String}, (∀ s ∈ l, ¬ p <:+: s.data) → ¬ p <:+: (jsJoin "\n" l).data := by
  intro l
  induction l with
  | nil =>
    intro _ h
    exact hne (List.eq_nil_of_infix_nil h)
  | cons a rest ih =>
    intro hall
    cases rest with
    | nil => exact hall a (List.mem_singleton.mpr rfl)
    | cons b bs =>
      intro h
      have hdata : (jsJoin "\n" (a :: b :: bs)).data
          = a.data ++ Char.ofNat 10 :: (jsJoin "\n" (b :: bs)).data := by
        show (a ++ "\n" ++ jsJoin "\n" (b :: bs)).data = _
        simp only [String.data_append, List.append_assoc]
        rfl
      rw [hdata] at h
      rcases infix_split_at_cons h hnl with h1 | h2
      · exact hall a (List.mem_cons_self _ _) h1
      · exact ih (fun s hs => hall s (List.mem_cons_of_mem a hs)) h2

theorem buildPrompt_contains {p : PromptParams} {sec q : String}
    (hmem : sec ∈ sectionsOf p) (hq : q.data <:+: sec.data) :
    containsStr (buildPrompt p) q :=
  hq.trans (jsJoin_infix_of_mem hmem)

theorem buildPrompt_not_contains {p : PromptParams} {q : String}
    (hne : q ≠ "") (hnl : Char.ofNat 10 ∉ q.data)
    (hall : ∀ sec ∈ sectionsOf p, ¬ q.data <:+: sec.data) :
    ¬ containsStr (buildPrompt p) q := by
  have hne' : q.data ≠ [] := fun h => hne (by cases q; simp_all)
  exact jsJoin_nl_not_contains hne' hnl hall

/-- The filtered section list, written out: the optional background legend
and additional-instructions clause are dropped entirely when absent, while
the age slot is always present (empty when the age option is unmapped). -/
theorem sectionsOf_eq (p : PromptParams) :
    sectionsOf p =
      [roleSection, "", "**Input Assets:**", image1Legend, image2Legend]
      ++ (if p.backgroundImage.isSome then [image3Legend] else [])
      ++ ["", "**Core Task:**", coreTaskSection, "", "**Key Directives:**",
          modelFidelitySection,
          getAgeInstruction p.modelAge,
          getGarmentApplicationInstruction p.paletteColors,
          poseSection,
          getBackgroundInstruction p.background p.backgroundImage.isSome,
          aspectRatioSection p.aspectRatio]
      ++ (if p.instructions = "" then [] else [additionalInstructionsSection p.instructions]) := by
  by_cases hb : p.backgroundImage.isSome <;> by_cases hi : p.instructions = "" <;>
    simp [sectionsOf, promptSections, hb, hi, List.filterMap]

/-- The age section is the mapped clause or the empty string. -/
theorem getAgeInstruction_cases (m : String) :
    (ageInstructionMap m = none ∧ getAgeInstruction m = "") ∨
    (∃ t, ageInstructionMap m = some t ∧ getAgeInstruction m = ageClause t) := by
  unfold getAgeInstruction
  cases h : ageInstructionMap m with
  | none => exact Or.inl ⟨rfl, rfl⟩
  | some t => exact Or.inr ⟨t, rfl, rfl⟩

/-- The values the age map can take. -/
theorem ageInstructionMap_mem {m t : String} (h : ageInstructionMap m = some t) :
    t ∈ ["a child, approximately 6-9 years old",
         "a pre-teen, approximately 10-12 years old",
         "a teenager, approximately 13-16 years old",
         "a young adult, approximately 18-25 years old"] := by
  unfold ageInstructionMap at h
  split at h
  · simp_all
  · split at h
    · simp_all
    · split at h
      · simp_all
      · split at h <;> simp_all

/-- A string built around `q` contains `q`. -/
theorem contains_of_eq_append (s u q v : String) (h : s = u ++ q ++ v) :
    containsStr s q := by
  subst h
  show q.data <:+: _
  simp only [String.data_append]
  exact List.infix_append _ _ _

theorem jsJoin_go (sep acc : String) : ∀ l : List String,
    String.intercalate.go acc sep l = match l with
      | [] => acc
      | _ :: _ => acc ++ sep ++ jsJoin sep l := by
  intro l
  induction l generalizing acc with
  | nil => rfl
  | cons b bs ih =>
    show String.intercalate.go (acc ++ sep ++ b) sep bs = _
    rw [ih (acc ++ sep ++ b)]
    cases bs with
    | nil => rfl
    | cons c cs =>
      show acc ++ sep ++ b ++ sep ++ jsJoin sep (c :: cs)
          = acc ++ sep ++ (b ++ sep ++ jsJoin sep (c :: cs))
      simp [String.append_assoc]

/-- JavaScript `join` agrees with Lean's `String.intercalate`. -/
theorem jsJoin_eq_intercalate (sep : String) : ∀ l : List String,
    jsJoin sep l = String.intercalate sep l := by
  intro l
  cases l with
  | nil => rfl
  | cons a t =>
    show jsJoin sep (a :: t) = String.intercalate.go a sep t
    rw [jsJoin_go sep a t]
    cases t with
    | nil => rfl
    | cons b bs => rfl

/-- The sections that do not depend on the input at all (the background
legend included: whether it is EMITTED depends on the input, its text does
not). -/
def fixedSections : List String :=
  [roleSection, "", "**Input Assets:**", image1Legend, image2Legend, image3Legend,
   "**Core Task:**", coreTaskSection, "**Key Directives:**", modelFidelitySection, poseSection]

theorem sectionsOf_subset (p : PromptParams) :
    ∀ sec ∈ sectionsOf p,
      sec ∈ fixedSections ∨
      sec = getAgeInstruction p.modelAge ∨
      sec = getGarmentApplicationInstruction p.paletteColors ∨
      sec = getBackgroundInstruction p.background p.backgroundImage.isSome ∨
      sec = aspectRatioSection p.aspectRatio ∨
      sec = additionalInstructionsSection p.instructions := by
  intro sec hsec
  rw [sectionsOf_eq] at hsec
  rcases List.mem_append.mp hsec with h12 | h4
  rcases List.mem_append.mp h12 with h1i | h3
  rcases List.mem_append.mp h1i with h1 | h2
  · simp only [List.mem_cons, List.not_mem_nil, or_false] at h1
    rcases h1 with h|h|h|h|h <;> exact Or.inl (by rw [h]; simp [fixedSections])
  · split at h2
    · simp only [List.mem_cons, List.not_mem_nil, or_false] at h2
      exact Or.inl (by rw [h2]; simp [fixedSections])
    · exact absurd h2 (List.not_mem_nil sec)
  · simp only [List.mem_cons, List.not_mem_nil, or_false] at h3
    rcases h3 with h|h|h|h|h|h|h|h|h|h|h
    · exact Or.inl (by rw [h]; simp [fixedSections])
    · exact Or.inl (by rw [h]; simp [fixedSections])
    · exact Or.inl (by rw [h]; simp [fixedSections])
    · exact Or.inl (by rw [h]; simp [fixedSections])
    · exact Or.inl (by rw [h]; simp [fixedSections])
    · exact Or.inl (by rw [h]; simp [fixedSections])
    · exact Or.inr (Or.inl h)
    · exact Or.inr (Or.inr (Or.inl h))
    · exact Or.inl (by rw [h]; simp [fixedSections])
    · exact Or.inr (Or.inr (Or.inr (Or.inl h)))
    · exact Or.inr (Or.inr (Or.inr (Or.inr (Or.inl h))))
  · split at h4
    · exact absurd h4 (List.not_mem_nil sec)
    · simp only [List.mem_cons, List.not_mem_nil, or_false] at h4
      exact Or.inr (Or.inr (Or.inr (Or.inr (Or.inr h4))))

theorem age_section_mem (p : PromptParams) :
    getAgeInstruction p.modelAge ∈ sectionsOf p := by
  rw [sectionsOf_eq]; simp

theorem garment_section_mem (p : PromptParams) :
    getGarmentApplicationInstruction p.paletteColors ∈ sectionsOf p := by
  rw [sectionsOf_eq]; simp

/-- Omission of a pattern from the whole directive reduces to omission from
each section: the separator is a newline, so a newline-free pattern cannot
straddle a section boundary. -/
theorem not_contains_of_sections {p : PromptParams} {q : String}
    (hne : q ≠ "") (hnl : Char.ofNat 10 ∉ q.data)
    (hfixed : ∀ sec ∈ fixedSections, ¬ containsStr sec q)
    (hage : ¬ containsStr (getAgeInstruction p.modelAge) q)
    (hgar : ¬ containsStr (getGarmentApplicationInstruction p.paletteColors) q)
    (hbgs : ¬ containsStr (getBackgroundInstruction p.background p.backgroundImage.isSome) q)
    (hars : ¬ containsStr (aspectRatioSection p.aspectRatio) q)
    (hins : ¬ containsStr (additionalInstructionsSection p.instructions) q) :
    ¬ containsStr (buildPrompt p) q := by
  refine buildPrompt_not_contains hne hnl ?_
  intro sec hsec
  rcases sectionsOf_subset p sec hsec with hf | rfl | rfl | rfl | rfl | rfl
  · exact hfixed sec hf
  · exact hage
  · exact hgar
  · exact hbgs
  · exact hars
  · exact hins

/-- The four fixed age-range phrases, in option order. -/
def agePhrases : List String :=
  ["a child, approximately 6-9 years old",
   "a pre-teen, approximately 10-12 years old",
   "a teenager, approximately 13-16 years old",
   "a young adult, approximately 18-25 years old"]

/-- The fixed marker opening every age-adjustment clause. -/
def ageMarker : String := "- **Age Adjustment:**"

/-- The patterns whose absence from the free-text sections the age claim
assumes. -/
def agePatterns : List String := agePhrases ++ [ageMarker]

/-- The values `getAgeInstruction` can take. -/
theorem getAgeInstruction_val (m : String) :
    getAgeInstruction m ∈ ("" :: agePhrases.map ageClause) := by
  rcases getAgeInstruction_cases m with ⟨-, h⟩ | ⟨t, hmap, h⟩
  · rw [h]; exact List.mem_cons_self _ _
  · rw [h]
    have ht := ageInstructionMap_mem hmap
    simp only [List.mem_cons, List.not_mem_nil, or_false] at ht
    rcases ht with rfl | rfl | rfl | rfl <;> simp [agePhrases]

/-- The patterns whose absence from the free-text sections the palette
claim assumes. -/
def colorPatterns : List String := [colorPreservationClause, "use only this palette:"]

/-- C4: with no palette constraint the directive contains the
color-preservation clause and no palette clause; with a non-empty palette
the directive contains the palette clause — the colors joined by `', '`,
each color verbatim — and the builder replaces the color-preservation
sentence, which then occurs nowhere in the directive provided the
free-text inputs do not themselves contain these sentences. -/
theorem palette_directive_spec (p : PromptParams)
    (hbg : ∀ q ∈ colorPatterns,
      ¬ containsStr (getBackgroundInstruction p.background p.backgroundImage.isSome) q)
    (har : ∀ q ∈ colorPatterns, ¬ containsStr (aspectRatioSection p.aspectRatio) q)
    (hin : ∀ q ∈ colorPatterns, ¬ containsStr (additionalInstructionsSection p.instructions) q) :
    (p.paletteColors = none →
      containsStr (buildPrompt p) colorPreservationClause ∧
      ¬ containsStr (buildPrompt p) "use only this palette:") ∧
    (∀ l, p.paletteColors = some l → l ≠ [] →
      getGarmentApplicationInstruction p.paletteColors
        = "- **Garment Application:** " ++ garmentIntro ++ " " ++ paletteClause l
          ++ " " ++ garmentFit ∧
      containsStr (buildPrompt p) (paletteClause l) ∧
      (∀ c ∈ l, containsStr (buildPrompt p) c) ∧
      (¬ containsStr (getGarmentApplicationInstruction p.paletteColors) colorPreservationClause →
        ¬ containsStr (buildPrompt p) colorPreservationClause)) := by
  constructor
  · intro hnone
    have hgar0 : getGarmentApplicationInstruction p.paletteColors
        = getGarmentApplicationInstruction none := by rw [hnone]
    constructor
    · refine buildPrompt_contains (garment_section_mem p) ?_
      rw [hgar0]
      exact contains_of_eq_append _ ("- **Garment Application:** " ++ garmentIntro ++ " ")
        colorPreservationClause (" " ++ garmentFit) (by rfl)
    · refine not_contains_of_sections (by decide) (by decide) (by decide) ?_ ?_
        (hbg _ (by decide)) (har _ (by decide)) (hin _ (by decide))
      · have h5 := getAgeInstruction_val p.modelAge
        simp only [agePhrases, List.map_cons, List.map_nil, List.mem_cons,
          List.not_mem_nil, or_false] at h5
        rcases h5 with h|h|h|h|h <;> rw [h] <;> decide
      · rw [hgar0]; decide
  · intro l hsome hlne
    have hlen : 0 < l.length := List.length_pos.mpr hlne
    have hgar_eq : getGarmentApplicationInstruction p.paletteColors
        = "- **Garment Application:** " ++ garmentIntro ++ " " ++ paletteClause l
          ++ " " ++ garmentFit := by
      rw [hsome]
      show (let colorInstruction := if 0 < l.length then paletteClause l
              else colorPreservationClause
            "- **Garment Application:** " ++ garmentIntro ++ " " ++ colorInstruction
              ++ " " ++ garmentFit) = _
      rw [if_pos hlen]
    have hpal_in : (paletteClause l).data
        <:+: (getGarmentApplicationInstruction p.paletteColors).data := by
      refine contains_of_eq_append _ ("- **Garment Application:** " ++ garmentIntro ++ " ")
        (paletteClause l) (" " ++ garmentFit) ?_
      rw [hgar_eq]
      simp [String.append_assoc]
    refine ⟨hgar_eq, buildPrompt_contains (garment_section_mem p) hpal_in, ?_, ?_⟩
    · intro c hc
      have h1 : c.data <:+: (jsJoin ", " l).data := jsJoin_infix_of_mem hc
      have h2 : (jsJoin ", " l).data <:+: (paletteClause l).data :=
        contains_of_eq_append _
          "Crucially, the garment's colors MUST be changed to use only this palette: "
          (jsJoin ", " l) "." rfl
      exact buildPrompt_contains (garment_section_mem p) ((h1.trans h2).trans hpal_in)
    · intro hnogp
      refine not_contains_of_sections (by decide) (by decide) (by decide) ?_ ?_
        (hbg _ (by decide)) (har _ (by decide)) (hin _ (by decide))
      · have h5 := getAgeInstruction_val p.modelAge
        simp only [agePhrases, List.map_cons, List.map_nil, List.mem_cons,
          List.not_mem_nil, or_false] at h5
        rcases h5 with h|h|h|h|h <;> rw [h] <;> decide
      · exact hnogp

/-- C5: an age option in the map puts exactly its own fixed age-range
phrase into the directive (none of the other three phrases appears); an
unmapped age option — `'none'`, the original/unchanged option — leaves the
directive without any age-adjustment clause.  The free-text sections are
assumed not to contain the age phrases themselves. -/
theorem age_directive_spec (p : PromptParams)
    (hbg : ∀ q ∈ agePatterns,
      ¬ containsStr (getBackgroundInstruction p.background p.backgroundImage.isSome) q)
    (hga : ∀ q ∈ agePatterns,
      ¬ containsStr (getGarmentApplicationInstruction p.paletteColors) q)
    (har : ∀ q ∈ agePatterns, ¬ containsStr (aspectRatioSection p.aspectRatio) q)
    (hin : ∀ q ∈ agePatterns, ¬ containsStr (additionalInstructionsSection p.instructions) q) :
    (∀ t, ageInstructionMap p.modelAge = some t →
      containsStr (buildPrompt p) t ∧
      ∀ q ∈ agePhrases, q ≠ t → ¬ containsStr (buildPrompt p) q) ∧
    (ageInstructionMap p.modelAge = none →
      ¬ containsStr (buildPrompt p) ageMarker) := by
  constructor
  · intro t hmap
    have hage_eq : getAgeInstruction p.modelAge = ageClause t := by
      unfold getAgeInstruction; rw [hmap]
    constructor
    · refine buildPrompt_contains (age_section_mem p) ?_
      rw [hage_eq]
      exact contains_of_eq_append _
        "- **Age Adjustment:** Crucially, interpret the model with the appearance of "
        t "." rfl
    · intro q hq hqt
      have ht4 := ageInstructionMap_mem hmap
      simp only [List.mem_cons, List.not_mem_nil, or_false] at ht4
      simp only [agePhrases, List.mem_cons, List.not_mem_nil, or_false] at hq
      rcases ht4 with rfl | rfl | rfl | rfl <;> rcases hq with rfl | rfl | rfl | rfl <;>
        first
          | exact absurd rfl hqt
          | · refine not_contains_of_sections (by decide) (by decide) (by decide) ?_
                (hga _ (by decide)) (hbg _ (by decide)) (har _ (by decide))
                (hin _ (by decide))
              rw [hage_eq]; decide
  · intro hnone
    have hage_eq : getAgeInstruction p.modelAge = "" := by
      unfold getAgeInstruction; rw [hnone]
    refine not_contains_of_sections (by decide) (by decide) (by decide) ?_
      (hga _ (by decide)) (hbg _ (by decide)) (har _ (by decide)) (hin _ (by decide))
    rw [hage_eq]; decide

/-- C6 counterexample: with the age option unmapped (`'none'`, the
original/unchanged option) the builder emits an empty string for the age
slot, which the `!== null` filter keeps, leaving a blank line between the
model-fidelity clause and the garment clause; with a mapped age option the
same position holds the age clause and no blank line. -/
theorem omitted_age_blank_line_counterexample :
    containsStr
      (buildPrompt { instructions := "", background := "minimalist urban",
                     aspectRatio := "9:16", paletteColors := none,
                     backgroundImage := none, modelAge := "none" })
      "from the drawing.\n\n- **Garment Application:**" ∧
    ¬ containsStr
      (buildPrompt { instructions := "", background := "minimalist urban",
                     aspectRatio := "9:16", paletteColors := none,
                     backgroundImage := none, modelAge := "child" })
      "from the drawing.\n\n" := by
  constructor
  · decide
  · decide

/-- C6 amended: the filtered section list keeps the fixed clause order; an
absent background legend and absent additional instructions are dropped
entirely (no element, hence no blank line), but the age slot is always
emitted — as the empty string when the age option is unmapped, which the
newline join renders as one blank line. -/
theorem clause_order_spec (p : PromptParams) :
    sectionsOf p =
      [roleSection, "", "**Input Assets:**", image1Legend, image2Legend]
      ++ (if p.backgroundImage.isSome then [image3Legend] else [])
      ++ ["", "**Core Task:**", coreTaskSection, "", "**Key Directives:**",
          modelFidelitySection,
          getAgeInstruction p.modelAge,
          getGarmentApplicationInstruction p.paletteColors,
          poseSection,
          getBackgroundInstruction p.background p.backgroundImage.isSome,
          aspectRatioSection p.aspectRatio]
      ++ (if p.instructions = "" then []
          else [additionalInstructionsSection p.instructions]) ∧
    buildPrompt p = jsJoin "\n" (sectionsOf p) ∧
    (ageInstructionMap p.modelAge = none → getAgeInstruction p.modelAge = "") := by
  refine ⟨sectionsOf_eq p, rfl, ?_⟩
  intro h
  unfold getAgeInstruction
  rw [h]

theorem findInlineImage_append {pre : List ResponsePart}
    (h : ∀ q ∈ pre, q.inlineData = none) (l : List ResponsePart) :
    findInlineImage (pre ++ l) = findInlineImage l := by
  induction pre with
  | nil => rfl
  | cons p ps ih =>
    show (match p.inlineData with
          | some d => some d
          | none => findInlineImage (ps ++ l)) = findInlineImage l
    rw [h p (List.mem_cons_self _ _)]
    exact ih (fun q hq => h q (List.mem_cons_of_mem p hq))

theorem findInlineImage_none {l : List ResponsePart}
    (h : ∀ q ∈ l, q.inlineData = none) : findInlineImage l = none := by
  have := findInlineImage_append h []
  simpa using this

theorem textParts_filter_eq : ∀ (l : List ResponsePart),
    (∀ p ∈ l, p.text ≠ some "") →
    ((l.filter (fun p => textTruthy p.text)).map (fun p => p.text.getD ""))
      = l.filterMap ResponsePart.text := by
  intro l
  induction l with
  | nil => intro _; rfl
  | cons p ps ih =>
    intro h
    have hps := fun q hq => h q (List.mem_cons_of_mem p hq)
    cases hp : p.text with
    | none =>
      have hcond : textTruthy none = false := rfl
      simp [List.filter_cons, List.filterMap_cons, hcond, hp, ih hps]
    | some s =>
      have hs : s ≠ "" := fun hs0 => h p (List.mem_cons_self _ _) (by rw [hp, hs0])
      have hemp : s.isEmpty = false := by
        cases hh : s.isEmpty
        · rfl
        · exact absurd ((String.isEmpty_iff s).mp hh) hs
      have hcond : textTruthy (some s) = true := by simp [textTruthy, hemp]
      simp [List.filter_cons, List.filterMap_cons, hcond, hp, ih hps]

/-- C1: a response that is not safety-blocked and whose parts contain an
inline-image part is interpreted as success, with the data URI built from
the first inline-image part, whatever comes before (non-image parts) or
after it. -/
theorem first_inline_image_spec (r : ApiResponse) (pre post : List ResponsePart)
    (part : ResponsePart) (d : InlineData)
    (hsafe : (firstCandidate r).bind Candidate.finishReason ≠ some "SAFETY")
    (hparts : partsOf r = pre ++ part :: post)
    (hpre : ∀ q ∈ pre, q.inlineData = none)
    (hd : part.inlineData = some d) :
    processApiResponse r = Except.ok ("data:" ++ d.mimeType ++ ";base64," ++ d.data) := by
  unfold processApiResponse
  rw [if_neg hsafe, hparts, findInlineImage_append hpre]
  show (match (match part.inlineData with
               | some dd => some dd
               | none => findInlineImage post) with
        | some dd => Except.ok ("data:" ++ dd.mimeType ++ ";base64," ++ dd.data)
        | none => _) = _
  rw [hd]

/-- C2 amended: when the completion reason is the safety sentinel and the
per-category safety ratings are PRESENT, the interpreter fails with the
safety-block message naming the blocked categories joined by `', '`, or
the `'unspecified category'` fallback when none is flagged — regardless of
any inline-image part.  (When the ratings are absent the code instead
throws a TypeError; see the counterexample.) -/
theorem safety_block_spec (r : ApiResponse) (c : Candidate) (ratings : List SafetyRating)
    (hc : firstCandidate r = some c)
    (hf : c.finishReason = some "SAFETY")
    (hr : c.safetyRatings = some ratings) :
    processApiResponse r = Except.error (ApiError.safetyBlocked
      ("The request was blocked due to safety policies regarding: " ++
        (let cats := String.intercalate ", "
          ((ratings.filter (fun rt => rt.blocked)).map (fun rt => rt.category))
         if cats = "" then "unspecified category" else cats) ++
        ". Please adjust your images or prompts.")) := by
  have h1 : (firstCandidate r).bind Candidate.finishReason = some "SAFETY" := by
    rw [hc, Option.some_bind, hf]
  have h2 : (firstCandidate r).bind Candidate.safetyRatings = some ratings := by
    rw [hc, Option.some_bind, hr]
  unfold processApiResponse
  rw [if_pos h1, h2]
  show Except.error (ApiError.safetyBlocked (safetyMessage ratings)) = _
  unfold safetyMessage blockedCategoriesString
  rw [jsJoin_eq_intercalate]

/-- C2 counterexample: completion reason `'SAFETY'` with the safety
ratings ABSENT (and an inline image present): the interpreter throws the
modelled TypeError — `safetyRatings.filter` on `undefined` — not the
SafetyBlocked failure with the `'unspecified category'` fallback that the
claim asserts. -/
theorem safety_ratings_absent_counterexample :
    processApiResponse
      ⟨some [⟨some "SAFETY", none, some ⟨some [⟨some ⟨"QUJD", "image/png"⟩, none⟩]⟩⟩]⟩
      = Except.error ApiError.jsTypeError ∧
    isSafetyBlocked (processApiResponse
      ⟨some [⟨some "SAFETY", none, some ⟨some [⟨some ⟨"QUJD", "image/png"⟩, none⟩]⟩⟩]⟩)
      = false := by
  exact ⟨rfl, rfl⟩

/-- C3: a response that is not safety-blocked and has no inline-image part
fails with NoImageProduced; the reason is the space-joined, trimmed
concatenation of the (non-empty) text parts, with a fixed fallback
sentence when that is empty. -/
theorem no_image_reason_spec (r : ApiResponse)
    (hsafe : (firstCandidate r).bind Candidate.finishReason ≠ some "SAFETY")
    (himg : ∀ part ∈ partsOf r, part.inlineData = none)
    (htxt : ∀ part ∈ partsOf r, part.text ≠ some "") :
    processApiResponse r = Except.error (ApiError.noImageProduced
      ("The AI did not return an image. Reason: " ++
        (let reason := jsTrim (String.intercalate " " ((partsOf r).filterMap ResponsePart.text))
         if reason = "" then "No specific reason provided." else reason))) := by
  unfold processApiResponse
  rw [if_neg hsafe, findInlineImage_none himg]
  show Except.error (ApiError.noImageProduced
    (noImageMessage (jsTrim (jsJoin " " (textPartsOf r))))) = _
  unfold noImageMessage textPartsOf
  rw [textParts_filter_eq (partsOf r) htxt, jsJoin_eq_intercalate]

/-! ### Request assembly (`generateArtisticPhoto` / `refineArtisticPhoto`,
`src/types.ts` lines 185-231) -/

/-- One part of a multimodal request:
`{ text: string } | { inlineData: { data, mimeType } }`. -/
inductive RequestPart where
  | text (s : String)
  | inlineData (data mimeType : String)
deriving DecidableEq, Repr

/-- `GenerationParams` from `src/types.ts` (primary revision). -/
structure GenerationParams where
  garmentImage : ImageData
  modelImage : ImageData
  instructions : String
  background : String
  modelAge : String
  aspectRatio : String
  paletteColors : Option (List String) := none
  backgroundImage : Option ImageData := none
deriving DecidableEq, Repr

/-- The `Omit<…, 'garmentImage' | 'modelImage'>` projection passed to
`buildPrompt`. -/
def GenerationParams.toPromptParams (g : GenerationParams) : PromptParams :=
  { instructions := g.instructions, background := g.background,
    aspectRatio := g.aspectRatio, paletteColors := g.paletteColors,
    backgroundImage := g.backgroundImage, modelAge := g.modelAge }

/-- The part list assembled by `generateArtisticPhoto`: garment image,
model image, background image when present (`imageParts.push`), then the
directive text (`[...imageParts, textPart]`). -/
def generationParts (params : GenerationParams) : List RequestPart :=
  let textPart := RequestPart.text (buildPrompt params.toPromptParams)
  let garmentImagePart :=
    RequestPart.inlineData params.garmentImage.base64 params.garmentImage.mimeType
  let modelImagePart :=
    RequestPart.inlineData params.modelImage.base64 params.modelImage.mimeType
  let imageParts :=
    match params.backgroundImage with
    | some bg =>
      [garmentImagePart, modelImagePart]
        ++ [RequestPart.inlineData bg.base64 bg.mimeType]
    | none => [garmentImagePart, modelImagePart]
  imageParts ++ [textPart]

/-- The fixed professional framing wrapped around the refinement
instruction by `refineArtisticPhoto`. -/
def professionalRefinementPrompt (refinementPrompt : String) : String :=
  "You are a professional AI photo editor. Your task is to artistically refine the provided image based on the user's instruction.\nContext: This image is for a professional sportswear design portfolio. All modifications must maintain a photorealistic and high-quality standard.\nInstruction: \"" ++ refinementPrompt ++ "\""

/-- The part list assembled by `refineArtisticPhoto`:
`[imagePart, textPart]`. -/
def refinementParts (baseImage : ImageData) (refinementPrompt : String) : List RequestPart :=
  [RequestPart.inlineData baseImage.base64 baseImage.mimeType,
   RequestPart.text (professionalRefinementPrompt refinementPrompt)]

/-! ### Session state (`src/App.tsx`) -/

/-- The slice of the `App` component state the history claims are about. -/
structure SessionState where
  generatedImage : Option String := none
  generatedImagesHistory : List String := []
  error : Option String := none
  isLoading : Bool := false
  refinementPrompt : String := ""
  previewImageIndex : Option Nat := none
deriving DecidableEq, Repr

/-- The state transitions of `src/App.tsx` that touch this state slice:
the start, success and failure paths of `handleGenerate` and
`handleRefine`, editing the refinement prompt, and the preview-modal
handlers (`handleNavigatePreview`, `handleSetRefinementImage`). -/
inductive SessionOp where
  | generateStart
  | generateSuccess (result : String)
  | generateFailure (message : String)
  | refineStart
  | refineSuccess (result : String)
  | refineFailure (message : String)
  | editRefinementPrompt (value : String)
  | openPreview (index : Nat)
  | closePreview
  | navigatePreview (forward : Bool)
  | selectForRefinement (index : Nat)
deriving DecidableEq, Repr

/-- One step of the session: mirrors the `setState` calls of the
corresponding handler. -/
def applyOp : SessionOp → SessionState → SessionState
  | SessionOp.generateStart, s =>
    { s with isLoading := true, error := none, generatedImage := none }
  | SessionOp.generateSuccess r, s =>
    { s with generatedImage := some r,
             generatedImagesHistory := r :: s.generatedImagesHistory,
             isLoading := false }
  | SessionOp.generateFailure m, s =>
    { s with error := some m, isLoading := false }
  | SessionOp.refineStart, s =>
    { s with isLoading := true, error := none }
  | SessionOp.refineSuccess r, s =>
    { s with generatedImage := some r,
             generatedImagesHistory := r :: s.generatedImagesHistory,
             refinementPrompt := "",
             isLoading := false }
  | SessionOp.refineFailure m, s =>
    { s with error := some m, isLoading := false }
  | SessionOp.editRefinementPrompt v, s =>
    { s with refinementPrompt := v }
  | SessionOp.openPreview i, s =>
    { s with previewImageIndex := some i }
  | SessionOp.closePreview, s =>
    { s with previewImageIndex := none }
  | SessionOp.navigatePreview fwd, s =>
    match s.previewImageIndex with
    | none => s
    | some i =>
      let n := s.generatedImagesHistory.length
      let j := if fwd then (i + 1) % n else (i + n - 1) % n
      { s with previewImageIndex := some j }
  | SessionOp.selectForRefinement i, s =>
    if h : i < s.generatedImagesHistory.length then
      { s with generatedImage := some (s.generatedImagesHistory.get ⟨i, h⟩),
               previewImageIndex := none }
    else s

/-- C7: the generation part list is exactly garment image, model image,
background image iff one is present, then the directive text; every part
before the last is an inline image and the last is the text; and the
refinement call puts the base image before the wrapped instruction text,
on every call (the assembly does not depend on any session history). -/
theorem part_order_spec :
    (∀ params : GenerationParams,
      generationParts params =
        [RequestPart.inlineData params.garmentImage.base64 params.garmentImage.mimeType,
         RequestPart.inlineData params.modelImage.base64 params.modelImage.mimeType]
        ++ (match params.backgroundImage with
            | some bg => [RequestPart.inlineData bg.base64 bg.mimeType]
            | none => [])
        ++ [RequestPart.text (buildPrompt params.toPromptParams)] ∧
      (∀ part ∈ (generationParts params).dropLast,
        ∃ dd mm, part = RequestPart.inlineData dd mm) ∧
      (generationParts params).getLast?
        = some (RequestPart.text (buildPrompt params.toPromptParams))) ∧
    (∀ (base : ImageData) (instruction : String),
      refinementParts base instruction =
        [RequestPart.inlineData base.base64 base.mimeType,
         RequestPart.text (professionalRefinementPrompt instruction)]) := by
  refine ⟨fun params => ⟨?_, ?_, ?_⟩, fun base instruction => rfl⟩
  · cases hbg : params.backgroundImage <;> simp [generationParts, hbg]
  · intro part hpart
    cases hbg : params.backgroundImage <;>
      simp [generationParts, hbg, List.dropLast] at hpart <;>
      rcases hpart with rfl | rfl | rfl <;> exact ⟨_, _, rfl⟩
  · cases hbg : params.backgroundImage <;> simp [generationParts, hbg]

/-- C8: every successful generation or refinement prepends the new
artifact to the history, and no session operation ever removes history
elements — the old history is always a suffix of the new one, so all
previously stored artifacts stay present in their relative order. -/
theorem history_append_only :
    (∀ (r : String) (s : SessionState),
      (applyOp (SessionOp.generateSuccess r) s).generatedImagesHistory
        = r :: s.generatedImagesHistory ∧
      (applyOp (SessionOp.refineSuccess r) s).generatedImagesHistory
        = r :: s.generatedImagesHistory) ∧
    (∀ (op : SessionOp) (s : SessionState),
      s.generatedImagesHistory <:+ (applyOp op s).generatedImagesHistory) := by
  refine ⟨fun r s => ⟨rfl, rfl⟩, fun op s => ?_⟩
  cases op <;> simp only [applyOp] <;>
    first
      | exact List.suffix_cons _ _
      | exact List.suffix_refl _
      | (split <;> exact List.suffix_refl _)

/-! ### Data-URI decoding (`handleRefine`, `src/App.tsx` lines 172-174) -/

/-- JavaScript `String.prototype.split(',')` on character lists. -/
def splitCommaAux : List Char → List (List Char)
  | [] => [[]]
  | c :: rest =>
    if c = Char.ofNat 44 then [] :: splitCommaAux rest
    else
      match splitCommaAux rest with
      | [] => [[c]]
      | h :: t => (c :: h) :: t

/-- `generatedImage.split(',')[1]`: the second field, `undefined` (`none`)
when the string holds no comma. -/
def decodeBase64Payload (s : String) : Option String :=
  ((splitCommaAux s.data).map (fun l => String.mk l)).get? 1

/-- The lazy capture group of `/:(.*?);/` after a given position: the
characters up to the next `';'`, failing at end of input or at a newline
(`.` does not match a newline). -/
def regexCaptureToSemi : List Char → Option (List Char)
  | [] => none
  | c :: rest =>
    if c = Char.ofNat 59 then some []
    else if c = Char.ofNat 10 then none
    else (regexCaptureToSemi rest).map (fun l => c :: l)

/-- `s.match(/:(.*?);/)[1]`: at each start position in turn, a `':'`
followed by a lazily-matched capture up to a `';'`. -/
def regexMatchColonSemi : List Char → Option (List Char)
  | [] => none
  | c :: rest =>
    if c = Char.ofNat 58 then
      match regexCaptureToSemi rest with
      | some cap => some cap
      | none => regexMatchColonSemi rest
    else regexMatchColonSemi rest

/-- `generatedImage.match(/:(.*?);/)[1]` from `handleRefine`. -/
def decodeMimeType (s : String) : Option String :=
  (regexMatchColonSemi s.data).map (fun l => String.mk l)

/-- Re-encoding the two decoded fields the way `processApiResponse`
builds its artifact string. -/
def reencodeDataUri (m p : Option String) : Option String :=
  m.bind (fun mm => p.map (fun pp => encodeDataUri mm pp))

theorem regexCaptureToSemi_eq {l : List Char} (hsemi : Char.ofNat 59 ∉ l)
    (hnl : Char.ofNat 10 ∉ l) (r : List Char) :
    regexCaptureToSemi (l ++ Char.ofNat 59 :: r) = some l := by
  induction l with
  | nil => simp [regexCaptureToSemi]
  | cons c cs ih =>
    have hc1 : c ≠ Char.ofNat 59 := fun h => hsemi (h ▸ List.mem_cons_self c cs)
    have hc2 : c ≠ Char.ofNat 10 := fun h => hnl (h ▸ List.mem_cons_self c cs)
    have ihh := ih (fun h => hsemi (List.mem_cons_of_mem c h))
      (fun h => hnl (List.mem_cons_of_mem c h))
    simp [regexCaptureToSemi, hc1, hc2, ihh]

theorem splitCommaAux_ne_nil : ∀ l : List Char, splitCommaAux l ≠ [] := by
  intro l
  cases l with
  | nil => exact fun h => List.noConfusion h
  | cons c rest =>
    show (if c = Char.ofNat 44 then [] :: splitCommaAux rest
          else match splitCommaAux rest with
               | [] => [[c]]
               | h :: t => (c :: h) :: t) ≠ []
    split
    · exact fun h => List.noConfusion h
    · split <;> exact fun h => List.noConfusion h

theorem splitCommaAux_append {a : List Char} (ha : Char.ofNat 44 ∉ a) :
    ∀ b, splitCommaAux (a ++ b) =
      match splitCommaAux b with
      | [] => [a]
      | h :: t => (a ++ h) :: t := by
  induction a with
  | nil =>
    intro b
    cases hb : splitCommaAux b with
    | nil => exact absurd hb (splitCommaAux_ne_nil b)
    | cons h t => simp [hb]
  | cons c cs ih =>
    intro b
    have hc : c ≠ Char.ofNat 44 := fun h => ha (h ▸ List.mem_cons_self c cs)
    have ihh := ih (fun h => ha (List.mem_cons_of_mem c h)) b
    show splitCommaAux (c :: (cs ++ b)) = _
    rw [splitCommaAux, if_neg hc, ihh]
    cases hb : splitCommaAux b with
    | nil => rfl
    | cons h t => rfl

theorem splitCommaAux_no_comma {b : List Char} (hb : Char.ofNat 44 ∉ b) :
    splitCommaAux b = [b] := by
  have := splitCommaAux_append hb []
  simpa [splitCommaAux] using this

theorem regexMatchColonSemi_append {a : List Char} (ha : Char.ofNat 58 ∉ a)
    (l : List Char) :
    regexMatchColonSemi (a ++ Char.ofNat 58 :: l)
      = match regexCaptureToSemi l with
        | some cap => some cap
        | none => regexMatchColonSemi l := by
  induction a with
  | nil => simp [regexMatchColonSemi]
  | cons c cs ih =>
    have hc : c ≠ Char.ofNat 58 := fun h => ha (h ▸ List.mem_cons_self c cs)
    have ihh := ih (fun h => ha (List.mem_cons_of_mem c h))
    show regexMatchColonSemi (c :: (cs ++ Char.ofNat 58 :: l)) = _
    rw [regexMatchColonSemi, if_neg hc, ihh]

/-- C9: decoding an interpreter-shaped artifact string with the
refinement path's split-on-comma and colon-semicolon match and
re-encoding the two fields reproduces the original string, for any media
type free of `';'`, `','` and newlines and any payload free of `','`. -/
theorem data_uri_roundtrip (m p : String)
    (hm1 : Char.ofNat 59 ∉ m.data) (hm2 : Char.ofNat 44 ∉ m.data)
    (hm3 : Char.ofNat 10 ∉ m.data) (hp : Char.ofNat 44 ∉ p.data) :
    decodeMimeType (encodeDataUri m p) = some m ∧
    decodeBase64Payload (encodeDataUri m p) = some p ∧
    reencodeDataUri (decodeMimeType (encodeDataUri m p))
      (decodeBase64Payload (encodeDataUri m p)) = some (encodeDataUri m p) := by
  have hdata : (encodeDataUri m p).data
      = "data".data ++ Char.ofNat 58
        :: (m.data ++ Char.ofNat 59 :: ("base64".data ++ Char.ofNat 44 :: p.data)) := by
    show ("data:" ++ m ++ ";base64," ++ p).data = _
    simp only [String.data_append, List.append_assoc]
    rfl
  have hdata2 : (encodeDataUri m p).data
      = ("data:".data ++ m.data ++ ";base64".data) ++ Char.ofNat 44 :: p.data := by
    show ("data:" ++ m ++ ";base64," ++ p).data = _
    simp only [String.data_append, List.append_assoc]
    rfl
  have hmime : decodeMimeType (encodeDataUri m p) = some m := by
    unfold decodeMimeType
    rw [hdata, regexMatchColonSemi_append (by decide), regexCaptureToSemi_eq hm1 hm3]
    rfl
  have hpayload : decodeBase64Payload (encodeDataUri m p) = some p := by
    unfold decodeBase64Payload
    have hfree : Char.ofNat 44 ∉ "data:".data ++ m.data ++ ";base64".data := by
      intro h
      rcases List.mem_append.mp h with h1 | h2
      · rcases List.mem_append.mp h1 with h3 | h4
        · exact absurd h3 (by decide)
        · exact hm2 h4
      · exact absurd h2 (by decide)
    rw [hdata2, splitCommaAux_append hfree]
    have hb : splitCommaAux (Char.ofNat 44 :: p.data) = [] :: [p.data] := by
      rw [splitCommaAux, if_pos rfl, splitCommaAux_no_comma hp]
    rw [hb]
    rfl
  refine ⟨hmime, hpayload, ?_⟩
  rw [hmime, hpayload]
  rfl

/-! ### The palette table (`src/data/palettes.ts`) and its pass-through -/

/-- `ColorPalette` from `src/data/palettes.ts`. -/
structure ColorPalette where
  id : String
  name : String
  colors : List String
deriving DecidableEq, Repr

/-- `colorPalettes` from `src/data/palettes.ts`: the first entry is the
special `'none'`/`Original` palette with an empty color list. -/
def colorPalettes : List ColorPalette :=
  [⟨"none", "Original", []⟩,
   ⟨"sunset", "Atardecer", ["#F97721", "#F4A723", "#D34E44", "#9B3C55", "#2F264D"]⟩,
   ⟨"oceanic", "Oceánicos", ["#006994", "#0096C7", "#48B5E3", "#90E0EF", "#CAF0F8"]⟩,
   ⟨"pastel", "Pastel", ["#FFADAD", "#FFD6A5", "#FDFFB6", "#CAFFBF", "#9BF6FF"]⟩,
   ⟨"monochrome", "Monocromático", ["#1C1C1C", "#4A4A4A", "#8C8C8C", "#CCCCCC", "#F5F5F5"]⟩,
   ⟨"forest", "Bosque", ["#2D6A4F", "#40916C", "#52B788", "#74C69D", "#95D5B2"]⟩]

/-- `handleGenerate`'s palette lookup and pass-through:
`colorPalettes.find(p => p.id === selectedPaletteId)?.colors`. -/
def paletteColorsForId (selectedPaletteId : String) : Option (List String) :=
  (colorPalettes.find? (fun pal => pal.id = selectedPaletteId)).map ColorPalette.colors

/-- C10: an empty palette list behaves exactly like an absent palette —
`buildPrompt` yields the same directive — and the default `'none'`
(`Original`) palette, the head of the palette table, passes exactly the
empty color list through to the generation call. -/
theorem empty_palette_eq_absent :
    (∀ p : PromptParams,
      buildPrompt { p with paletteColors := some [] }
        = buildPrompt { p with paletteColors := none }) ∧
    colorPalettes.head? = some ⟨"none", "Original", []⟩ ∧
    paletteColorsForId "none" = some [] ∧
    (∀ p : PromptParams,
      buildPrompt { p with paletteColors := paletteColorsForId "none" }
        = buildPrompt { p with paletteColors := none }) := by
  have hgar : getGarmentApplicationInstruction (some [])
      = getGarmentApplicationInstruction none := rfl
  have hmain : ∀ p : PromptParams,
      buildPrompt { p with paletteColors := some [] }
        = buildPrompt { p with paletteColors := none } := by
    intro p
    unfold buildPrompt sectionsOf promptSections
    simp only [hgar]
  exact ⟨hmain, rfl, rfl, fun p => hmain p⟩

/-! ### Witnesses: each claim theorem with hypotheses, at a concrete input -/

/-- Witness for C1: the spec example — one inline PNG part with payload
`QUJD` followed by a text part — yields `data:image/png;base64,QUJD`. -/
theorem first_inline_image_spec_witness :
    processApiResponse
      ⟨some [⟨some "STOP", none, some ⟨some [⟨some ⟨"QUJD", "image/png"⟩, none⟩,
        ⟨none, some "trailing text"⟩]⟩⟩]⟩
      = Except.ok "data:image/png;base64,QUJD" := by
  have h := first_inline_image_spec
    ⟨some [⟨some "STOP", none, some ⟨some [⟨some ⟨"QUJD", "image/png"⟩, none⟩,
      ⟨none, some "trailing text"⟩]⟩⟩]⟩
    [] [⟨none, some "trailing text"⟩] ⟨some ⟨"QUJD", "image/png"⟩, none⟩
    ⟨"QUJD", "image/png"⟩ (by decide) rfl (by decide) rfl
  exact h.trans rfl

/-- Witness for C2 (amended): categories `adult` and `violence` flagged as
blocked, with an inline image also present, yield the SafetyBlocked
message naming both, joined by `', '`. -/
theorem safety_block_spec_witness :
    processApiResponse
      ⟨some [⟨some "SAFETY", some [⟨"adult", true⟩, ⟨"violence", true⟩],
        some ⟨some [⟨some ⟨"QUJD", "image/png"⟩, none⟩]⟩⟩]⟩
      = Except.error (ApiError.safetyBlocked
          "The request was blocked due to safety policies regarding: adult, violence. Please adjust your images or prompts.") := by
  have h := safety_block_spec
    ⟨some [⟨some "SAFETY", some [⟨"adult", true⟩, ⟨"violence", true⟩],
      some ⟨some [⟨some ⟨"QUJD", "image/png"⟩, none⟩]⟩⟩]⟩
    ⟨some "SAFETY", some [⟨"adult", true⟩, ⟨"violence", true⟩],
      some ⟨some [⟨some ⟨"QUJD", "image/png"⟩, none⟩]⟩⟩
    [⟨"adult", true⟩, ⟨"violence", true⟩] rfl rfl rfl
  exact h.trans rfl

/-- Witness for C3: the spec example — no image part, text parts `No`,
`suitable`, `pose` — yields the reason `No suitable pose`. -/
theorem no_image_reason_spec_witness :
    processApiResponse
      ⟨some [⟨some "STOP", none, some ⟨some [⟨none, some "No"⟩, ⟨none, some "suitable"⟩,
        ⟨none, some "pose"⟩]⟩⟩]⟩
      = Except.error (ApiError.noImageProduced
          "The AI did not return an image. Reason: No suitable pose") := by
  have h := no_image_reason_spec
    ⟨some [⟨some "STOP", none, some ⟨some [⟨none, some "No"⟩, ⟨none, some "suitable"⟩,
      ⟨none, some "pose"⟩]⟩⟩]⟩
    (by decide) (by decide) (by decide)
  exact h.trans rfl

/-- Witness for C4: with palette `["#F97721", "#F4A723"]` the directive
contains the first color verbatim and omits the color-preservation
sentence. -/
theorem palette_directive_spec_witness :
    containsStr
      (buildPrompt ⟨"", "studio", "9:16", some ["#F97721", "#F4A723"], none, "none"⟩)
      "#F97721" ∧
    ¬ containsStr
      (buildPrompt ⟨"", "studio", "9:16", some ["#F97721", "#F4A723"], none, "none"⟩)
      colorPreservationClause := by
  have h := palette_directive_spec
    ⟨"", "studio", "9:16", some ["#F97721", "#F4A723"], none, "none"⟩
    (by decide) (by decide) (by decide)
  rcases h.2 ["#F97721", "#F4A723"] rfl (by decide) with ⟨-, -, hc, hn⟩
  exact ⟨hc _ (by decide), hn (by decide)⟩

/-- Witness for C5: with the age option `child` the directive contains the
child age-range phrase and not the teenager phrase. -/
theorem age_directive_spec_witness :
    containsStr (buildPrompt ⟨"", "studio", "9:16", none, none, "child"⟩)
      "a child, approximately 6-9 years old" ∧
    ¬ containsStr (buildPrompt ⟨"", "studio", "9:16", none, none, "child"⟩)
      "a teenager, approximately 13-16 years old" := by
  have h := age_directive_spec ⟨"", "studio", "9:16", none, none, "child"⟩
    (by decide) (by decide) (by decide) (by decide)
  exact ⟨(h.1 "a child, approximately 6-9 years old" (by decide)).1,
    (h.1 "a child, approximately 6-9 years old" (by decide)).2
      "a teenager, approximately 13-16 years old" (by decide) (by decide)⟩

/-- Witness for C6 (amended): the unmapped `'none'` age option yields an
empty-string age slot. -/
theorem clause_order_spec_witness : getAgeInstruction "none" = "" := by
  exact (clause_order_spec ⟨"", "studio", "9:16", none, none, "none"⟩).2.2 (by decide)

/-- Witness for C9: the artifact string `data:image/png;base64,QUJD`
decodes to `image/png` and `QUJD` and re-encodes to itself. -/
theorem data_uri_roundtrip_witness :
    decodeMimeType "data:image/png;base64,QUJD" = some "image/png" ∧
    decodeBase64Payload "data:image/png;base64,QUJD" = some "QUJD" ∧
    reencodeDataUri (decodeMimeType "data:image/png;base64,QUJD")
      (decodeBase64Payload "data:image/png;base64,QUJD")
      = some "data:image/png;base64,QUJD" := by
  exact data_uri_roundtrip "image/png" "QUJD" (by decide) (by decide) (by decide) (by decide)

end Maillots
